import Mathlib

set_option autoImplicit false
set_option maxHeartbeats 1000000

namespace YTW

/-! Shallow embedding of the YouTube discovery crawl engine
(`app/workers/youtube/`).  Dates are abstract day numbers and timestamps are
seconds; `today` is passed explicitly wherever the source reads the ambient
clock.  Python sets are modelled as membership lists, dicts of counters as
total functions. -/

/-- The empty string, used as the (never-reached) default of list indexing. -/
def blank : String := ""

/-! Credential pool — `app/workers/youtube/key_manager.py` -/

/-- State of `APIKeyManager`: `_keys`, `_exhausted`, `_usage`,
`_current_index`, `_reset_date`. -/
structure APIKeyManager where
  keys : List String
  exhausted : List String
  usage : String → Nat
  currentIndex : Nat
  resetDate : Nat

/-- Embeds `_daily_reset_if_needed` (key_manager.py lines 77-84). -/
def dailyResetIfNeeded (today : Nat) (m : APIKeyManager) : APIKeyManager :=
  if today ≠ m.resetDate then
    { m with exhausted := [], usage := fun _ => 0, resetDate := today }
  else m

/-- The list comprehension `[k for k in self._keys if k not in self._exhausted]`. -/
def availableKeys (m : APIKeyManager) : List String :=
  m.keys.filter (fun k => decide (k ∉ m.exhausted))

/-- The round-robin scan of `get_key`: the first `offset in range(len(keys))`
whose key at `(start + offset) % len(keys)` is not exhausted. -/
def findOffset (m : APIKeyManager) (start n : Nat) : Option Nat :=
  (List.range n).find? (fun off => decide (m.keys.getD ((start + off) % n) blank ∉ m.exhausted))

/-- Embeds `self._usage[key] = self._usage.get(key, 0) + 1`. -/
def incUsage (u : String → Nat) (key : String) : String → Nat :=
  fun k => if k = key then u key + 1 else u k

/-- The body of `get_key` after the daily-reset check (key_manager.py lines 99-114). -/
def selectKey (m : APIKeyManager) : Option String × APIKeyManager :=
  if (availableKeys m).isEmpty then (none, m)
  else
    match findOffset m (m.currentIndex % m.keys.length) m.keys.length with
    | some off =>
      (some (m.keys.getD ((m.currentIndex % m.keys.length + off) % m.keys.length) blank),
       { m with
         currentIndex := (m.currentIndex % m.keys.length + off) % m.keys.length,
         usage := incUsage m.usage
           (m.keys.getD ((m.currentIndex % m.keys.length + off) % m.keys.length) blank) })
    | none => (none, m)

/-- Embeds `APIKeyManager.get_key` (key_manager.py lines 90-114). -/
def get_key (today : Nat) (m : APIKeyManager) : Option String × APIKeyManager :=
  selectKey (dailyResetIfNeeded today m)

/-- Embeds `APIKeyManager.mark_exhausted` (key_manager.py lines 116-127).  Note that,
unlike `get_key` and `status`, it does not call `_daily_reset_if_needed`. -/
def mark_exhausted (key : String) (m : APIKeyManager) : APIKeyManager :=
  { m with exhausted := m.exhausted.insert key }

/-- The snapshot returned by `APIKeyManager.status`. -/
structure PoolStatus where
  total_keys : Nat
  exhausted : Nat
  active : Nat
  usage_per_key : String → Nat
  reset_date : Nat

/-- Embeds `APIKeyManager.status` (key_manager.py lines 129-139). -/
def status (today : Nat) (m : APIKeyManager) : PoolStatus × APIKeyManager :=
  (⟨(dailyResetIfNeeded today m).keys.length,
    (dailyResetIfNeeded today m).exhausted.length,
    (dailyResetIfNeeded today m).keys.length - (dailyResetIfNeeded today m).exhausted.length,
    (dailyResetIfNeeded today m).usage,
    (dailyResetIfNeeded today m).resetDate⟩,
   dailyResetIfNeeded today m)

/-! Basic pool lemmas -/

/-! Operation sequences on the pool (for the §8 acquire/markExhausted property) -/

/-- One client-visible pool operation. -/
inductive PoolOp where
  | getKey : PoolOp
  | markEx : String → PoolOp

/-- Executes one pool operation; the second component is the value returned to
the caller (`none` for `mark_exhausted`, which returns nothing). -/
def poolStep (today : Nat) (m : APIKeyManager) : PoolOp → APIKeyManager × Option String
  | PoolOp.getKey => ((get_key today m).2, (get_key today m).1)
  | PoolOp.markEx k => (mark_exhausted k m, none)

/-- The list of values returned by a sequence of pool operations, all issued on
the same UTC day `today`. -/
def poolTrace (today : Nat) : APIKeyManager → List PoolOp → List (Option String)
  | _, [] => []
  | m, op :: ops => (poolStep today m op).2 :: poolTrace today (poolStep today m op).1 ops

/-- A concrete pool used for witnesses: two keys, nothing exhausted yet. -/
def m2w : APIKeyManager := ⟨["A", "B"], [], fun _ => 0, 0, 0⟩

/-! The daily reset (C6) -/

/-- A pool whose stored reset date (day 0) is in the past: key "A" is exhausted
with usage count 5, and the ambient date has moved on to day 1. -/
def m6 : APIKeyManager := ⟨["A", "B"], ["A"], fun k => if k = "A" then 5 else 0, 0, 0⟩

/-! Round-robin behaviour of `get_key` (C7) -/

/-- A fresh pool of two keys, nothing exhausted, index 0. -/
def m7 : APIKeyManager := ⟨["A", "B"], [], fun _ => 0, 0, 0⟩

/-! Category lookback resolver — `main_worker.py` lines 67-100 -/

def LOOKBACK_FIRST_RUN_DAYS : Nat := 7

def LOOKBACK_NORMAL_HOURS : Nat := 26

def LOOKBACK_STALE_THRESHOLD_HOURS : Nat := 48

/-- Embeds `_get_lookback` (main_worker.py lines 76-100), timestamps in whole seconds.
`hours_since > 48` on the real-valued hour gap is exactly `48 * 3600 < gap`
in seconds, and Python's `int(hours_since)` is the floor `gap / 3600` for the
non-negative gaps reachable here, so the integer embedding is exact. -/
def _get_lookback (now : Nat) (last_fetched_at : Option Nat) : Nat :=
  match last_fetched_at with
  | none => now - LOOKBACK_FIRST_RUN_DAYS * 86400
  | some last =>
    if LOOKBACK_STALE_THRESHOLD_HOURS * 3600 < now - last then
      now - ((now - last) / 3600 + 24) * 3600
    else
      now - LOOKBACK_NORMAL_HOURS * 3600

/-! Paginated search executor — `app/workers/youtube/youtube_search.py` -/

def MAX_PAGES_PER_JOB : Nat := 10

/-- One item of a search-response page, after the source's `.get` chains:
`""` models a missing or empty (falsy) `videoId`/`channelId`, exactly the
cases the `if vid and cid` guard rejects. -/
structure RawItem where
  videoId : String
  channelId : String
  publishedAt : Option String
deriving DecidableEq

/-- One element of the returned list:
`{"video_id": vid, "channel_id": cid, "published_at": pub}`. -/
structure SearchResult where
  video_id : String
  channel_id : String
  published_at : Option String
deriving DecidableEq

/-- The outcome of one transport attempt (`requests.get`): a timeout, another
request exception, or an HTTP response carrying a status code, the parsed
`items` and the optional `nextPageToken`. -/
inductive ApiResponse where
  | timeout : ApiResponse
  | netError : ApiResponse
  | httpStatus : Nat → List RawItem → Option String → ApiResponse
deriving DecidableEq

/-- Python truthiness of an optional string: `None` and `""` are falsy. -/
def strOptFalsy : Option String → Bool
  | none => true
  | some s => decide (s = blank)

/-- The per-item loop of a successful page (youtube_search.py lines 140-153):
append the items with truthy ids whose video id was not seen before. -/
def processItems (seen : List String) (results : List SearchResult) :
    List RawItem → List String × List SearchResult
  | [] => (seen, results)
  | item :: rest =>
    if item.videoId ≠ blank ∧ item.channelId ≠ blank ∧ item.videoId ∉ seen then
      processItems (item.videoId :: seen)
        (results ++ [⟨item.videoId, item.channelId, item.publishedAt⟩]) rest
    else
      processItems seen results rest

/-- The mutable loop state of `search_videos`. -/
structure SearchState where
  km : APIKeyManager
  results : List SearchResult
  seen : List String
  nextPageToken : Option String
  pagesFetched : Nat

/-- How a run ended: `finished` means the `while` loop exited by itself;
`outOfTrace` means the supplied transport trace ran out while the loop was
still going (one more transport attempt would have been made). -/
inductive RunOutcome where
  | finished : RunOutcome
  | outOfTrace : RunOutcome
deriving DecidableEq

/-- The `while` loop of `search_videos` (youtube_search.py lines 74-163),
driven by a finite trace of transport outcomes, one consumed per HTTP
attempt. -/
def searchLoop (today effectiveTarget : Nat) (st : SearchState) :
    List ApiResponse → RunOutcome × SearchState
  | [] =>
    if st.results.length < effectiveTarget ∧ st.pagesFetched < MAX_PAGES_PER_JOB then
      match (get_key today st.km).1 with
      | none => (RunOutcome.finished, { st with km := (get_key today st.km).2 })
      | some _ => (RunOutcome.outOfTrace, { st with km := (get_key today st.km).2 })
    else (RunOutcome.finished, st)
  | resp :: rest =>
    if st.results.length < effectiveTarget ∧ st.pagesFetched < MAX_PAGES_PER_JOB then
      match (get_key today st.km).1 with
      | none => (RunOutcome.finished, { st with km := (get_key today st.km).2 })
      | some key =>
        match resp with
        | ApiResponse.timeout =>
            searchLoop today effectiveTarget { st with km := (get_key today st.km).2 } rest
        | ApiResponse.netError =>
            (RunOutcome.finished, { st with km := (get_key today st.km).2 })
        | ApiResponse.httpStatus code items tok =>
            if code = 403 then
              searchLoop today effectiveTarget
                { st with km := mark_exhausted key (get_key today st.km).2 } rest
            else if code = 429 then
              searchLoop today effectiveTarget { st with km := (get_key today st.km).2 } rest
            else if code ≠ 200 then
              (RunOutcome.finished, { st with km := (get_key today st.km).2 })
            else if items.isEmpty then
              (RunOutcome.finished, { st with km := (get_key today st.km).2 })
            else
              if strOptFalsy tok then
                (RunOutcome.finished,
                 { km := (get_key today st.km).2,
                   results := (processItems st.seen st.results items).2,
                   seen := (processItems st.seen st.results items).1,
                   nextPageToken := tok,
                   pagesFetched := st.pagesFetched + 1 })
              else
                searchLoop today effectiveTarget
                  { km := (get_key today st.km).2,
                    results := (processItems st.seen st.results items).2,
                    seen := (processItems st.seen st.results items).1,
                    nextPageToken := tok,
                    pagesFetched := st.pagesFetched + 1 } rest
    else (RunOutcome.finished, st)

/-- Embeds `search_videos` (youtube_search.py lines 42-165): initial state plus the
hard cap `effective_target = min(target_count, MAX_PAGES_PER_JOB * 50)`. -/
def search_videos (today : Nat) (km : APIKeyManager) (target_count : Nat)
    (trace : List ApiResponse) : RunOutcome × SearchState :=
  searchLoop today (min target_count (MAX_PAGES_PER_JOB * 50)) ⟨km, [], [], none, 0⟩ trace

/-- The remote API's page-size contract: a page carries at most
`maxResults = 50` items. -/
def pageSizeOK : ApiResponse → Bool
  | ApiResponse.httpStatus _ items _ => decide (items.length ≤ 50)
  | _ => true

/-- A one-key pool for concrete search runs. -/
def kmW : APIKeyManager := ⟨["K"], [], fun _ => 0, 0, 0⟩

/-- A single 200-page trace: one good item, one item with a missing video id,
and no next-page token. -/
def traceW : List ApiResponse :=
  [ApiResponse.httpStatus 200 [⟨"v1", "c1", none⟩, ⟨blank, "c2", none⟩] none]

/-! Transient-error handling of the executor (C5) -/

/-! Transformed data model at the pipeline's interface boundary
(`transformers.transform_all` output and `app/models/lead.py`) -/

/-- A transformed channel object: the fields `_process_category` reads. -/
structure ChannelT where
  channel_id : String
  name : String
  subscriber_count : Nat
  primary_email : Option String
  primary_instagram : Option String
deriving DecidableEq

/-- A transformed video object: the fields `_process_category` reads. -/
structure VideoT where
  video_id : String
  channel_id : String
  title : String
  published_at : Option String
deriving DecidableEq

/-- The payload built by `transform_all` and consumed by steps 7-9. -/
structure Payload where
  channels : List ChannelT
  videos : List VideoT
  emails : List String
deriving DecidableEq

/-- A row of the `leads` table, restricted to the fields the lead gate writes
and its existence check reads. -/
structure Lead where
  channel_id : String
  video_id : String
  primary_email : Option String
  instagram_username : Option String
  status : String
deriving DecidableEq

/-- The existence check `db.query(Lead).filter(Lead.video_id == ...).first()`
(main_worker.py line 276) against the leads visible to the session.
Modelled from the spec: the session factory (`app/core/database.py`) is not
among the sources; following the spec — the check runs immediately before
creation and enforces at most one Lead per item identity even for two items
of the same batch — leads added earlier in the same pass are visible to the
query (SQLAlchemy's default autoflush behaviour). -/
def leadExists (leads : List Lead) (vid : String) : Bool :=
  leads.any (fun l => decide (l.video_id = vid))

/-- The `Lead(...)` construction (main_worker.py lines 296-311); the free-text
`notes` and the timestamps are inert and not modelled. -/
def mkLead (ch : ChannelT) (v : VideoT) : Lead :=
  { channel_id := v.channel_id, video_id := v.video_id,
    primary_email := ch.primary_email, instagram_username := ch.primary_instagram,
    status := "new" }

/-- The lead-gate pass (main_worker.py lines 274-313): for each video of the
payload, skip when a lead for its video id exists, look its channel up in the
payload, skip when the channel has neither a truthy email nor a truthy
instagram, otherwise add the lead; also counts `leads_created`. -/
def leadPass (channels : List ChannelT) (leads : List Lead) :
    List VideoT → List Lead × Nat
  | [] => (leads, 0)
  | v :: rest =>
    if leadExists leads v.video_id then leadPass channels leads rest
    else
      match channels.find? (fun c => decide (c.channel_id = v.channel_id)) with
      | none => leadPass channels leads rest
      | some ch =>
        if strOptFalsy ch.primary_email && strOptFalsy ch.primary_instagram then
          leadPass channels leads rest
        else
          ((leadPass channels (leads ++ [mkLead ch v]) rest).1,
           (leadPass channels (leads ++ [mkLead ch v]) rest).2 + 1)

/-- The lead gate's contact-signal test for a video: its channel is found in
the payload and carries a truthy email or instagram. -/
def videoHasSignal (channels : List ChannelT) (v : VideoT) : Bool :=
  match channels.find? (fun c => decide (c.channel_id = v.channel_id)) with
  | none => false
  | some ch => !(strOptFalsy ch.primary_email && strOptFalsy ch.primary_instagram)

/-- One payload channel with an email, for the lead-gate witness. -/
def chansW : List ChannelT := [⟨"c1", "Ch", 10, some "a@b", none⟩]

/-- A batch containing the same video identity twice. -/
def vidsW : List VideoT := [⟨"v1", "c1", "T", none⟩, ⟨"v1", "c1", "T", none⟩]

/-! Category processor and orchestrator — `main_worker.py` lines 143-446,
with the external collaborators (fetchers, scraper, transformer, bulk writer,
stats writer) supplied at their `Except`-valued interface boundary. -/

/-- A category row (`app/models/target_category.py`): the fields the worker
reads, plus the cursor `last_fetched_at` it writes. -/
structure Cat where
  id : Nat
  name : String
  youtube_query : String
  last_fetched_at : Option Nat
  priority : Nat
  is_active : Bool
deriving DecidableEq

/-- A search job dict from `search_matrix.get_search_jobs`. -/
structure Job where
  query : String
  region_code : String
  language : String
  category_name : String
deriving DecidableEq

/-- The per-category summary dict (main_worker.py lines 148-157). -/
structure Summary where
  category : String
  jobs_run : Nat
  raw_results : Nat
  unique_videos : Nat
  unique_channels : Nat
  emails_found : Nat
  leads_created : Nat
  errors : List String
deriving DecidableEq

def initSummary (name : String) : Summary :=
  ⟨name, 0, 0, 0, 0, 0, 0, []⟩

/-- Persisted state the pipeline touches: lead rows and the persisted video
ids (the `youtube_videos` table's keys, as used by `dedupe_existing`). -/
structure DB where
  leads : List Lead
  storedVideoIds : List String
deriving DecidableEq

/-- Embeds `_deduplicate` (main_worker.py lines 124-136): purely in-memory dedup of
the merged raw results by video id and channel id; Python's sets are modelled
as first-occurrence dedup lists (same membership). Returns
`(unique_video_ids, unique_channel_ids)`. -/
def _deduplicate (raw : List SearchResult) : List String × List String :=
  ((raw.map (fun r => r.video_id)).dedup, (raw.map (fun r => r.channel_id)).dedup)

/-- Embeds `dedupe_existing` (deduplicator.py lines 4-18): drops results whose video
id is already persisted, then returns the surviving channel ids and video
ids; the storage query is modelled by the persisted video-id list. -/
def dedupe_existing (storedVideoIds : List String) (results : List SearchResult) :
    List String × List String :=
  (((results.filter (fun r => decide (r.video_id ∉ storedVideoIds))).map
      (fun r => r.channel_id)).dedup,
   ((results.filter (fun r => decide (r.video_id ∉ storedVideoIds))).map
      (fun r => r.video_id)).dedup)

/-- The fan-out merge (main_worker.py lines 185-204): each future either
yields a batch, which is extended onto `all_raw`, or raises, which is logged
into the summary's error list; order abstracts the `as_completed` order. -/
def mergeBatches : List (Except String (List SearchResult)) →
    List SearchResult × List String
  | [] => ([], [])
  | Except.ok b :: rest =>
      ((mergeBatches rest).1 ++ b, (mergeBatches rest).2)
  | Except.error e :: rest =>
      ((mergeBatches rest).1, e :: (mergeBatches rest).2)

/-- The collaborator interface of one category run: the matrix expansion, the
per-future search outcomes, and the `Except`-valued external stages. -/
structure CatEnv (CR VR AD : Type) where
  matrixJobs : List Job
  searchBatches : List (Except String (List SearchResult))
  fetch_channels : String → List String → Except String (List CR)
  fetch_videos : String → List String → Except String (List VR)
  scrape_all_about : List String → Except String AD
  transform_all : List CR → List VR → AD → Nat → Except String Payload
  bulk_write : Payload → Except String Unit
  write_stats : Payload → Except String Unit

/-- What escapes the `try` block of `_process_category`: the exception
message, the summary as built so far, the video ids already bulk-written, and
the key-manager state. -/
structure CatFatal where
  msg : String
  summary : Summary
  written : List String
  km : APIKeyManager

/-- A normal return of the `try` block. -/
structure CatOk where
  summary : Summary
  cat : Cat
  km : APIKeyManager
  leads : List Lead
  written : List String

/-- The `try` block of `_process_category` (main_worker.py lines 159-321):
matrix expansion with fallback, lookback, fan-out merge, in-memory dedup,
detail fetches, scrape, transform, bulk write, stats, lead gate, and the
cursor update as the final step. -/
def catBody {CR VR AD : Type} (env : CatEnv CR VR AD) (today : Nat) (cat : Cat)
    (km : APIKeyManager) (leads : List Lead) : Except CatFatal CatOk :=
  let jobs := if env.matrixJobs.isEmpty then
      [⟨cat.youtube_query, "IN", "hi", cat.name⟩] else env.matrixJobs
  let _published_after := _get_lookback today cat.last_fetched_at
  let s3 : Summary :=
    { initSummary cat.name with
      jobs_run := jobs.length,
      raw_results := (mergeBatches env.searchBatches).1.length,
      errors := (mergeBatches env.searchBatches).2 }
  if (mergeBatches env.searchBatches).1.isEmpty then
    Except.ok ⟨s3, cat, km, leads, []⟩
  else
    let dd := _deduplicate (mergeBatches env.searchBatches).1
    let s4 : Summary :=
      { s3 with unique_videos := dd.1.length, unique_channels := dd.2.length }
    match (get_key today km).1 with
    | none => Except.ok ⟨s4, cat, (get_key today km).2, leads, []⟩
    | some key =>
      match env.fetch_channels key dd.2 with
      | Except.error e => Except.error ⟨e, s4, [], (get_key today km).2⟩
      | Except.ok channels_raw =>
        match env.fetch_videos key dd.1 with
        | Except.error e => Except.error ⟨e, s4, [], (get_key today km).2⟩
        | Except.ok videos_raw =>
          if channels_raw.isEmpty then
            Except.ok ⟨{ s4 with errors := s4.errors ++ ["channels_raw empty after fetch"] },
              cat, (get_key today km).2, leads, []⟩
          else
            match env.scrape_all_about dd.2 with
            | Except.error e => Except.error ⟨e, s4, [], (get_key today km).2⟩
            | Except.ok about_data =>
              match env.transform_all channels_raw videos_raw about_data cat.id with
              | Except.error e => Except.error ⟨e, s4, [], (get_key today km).2⟩
              | Except.ok payload =>
                let s7 : Summary := { s4 with emails_found := payload.emails.length }
                match env.bulk_write payload with
                | Except.error e => Except.error ⟨e, s7, [], (get_key today km).2⟩
                | Except.ok _ =>
                  match env.write_stats payload with
                  | Except.error e =>
                      Except.error ⟨e, s7, payload.videos.map (fun v => v.video_id),
                        (get_key today km).2⟩
                  | Except.ok _ =>
                    Except.ok
                      ⟨{ s7 with
                          leads_created := (leadPass payload.channels leads payload.videos).2 },
                        { cat with last_fetched_at := some today },
                        (get_key today km).2,
                        (leadPass payload.channels leads payload.videos).1,
                        payload.videos.map (fun v => v.video_id)⟩

/-- The bulk-upsert effect on persisted video ids
(`bulk_writer.bulk_write_all` with `on_conflict_do_nothing` on `video_id`). -/
def applyWrites (db : DB) (written : List String) : DB :=
  { db with storedVideoIds :=
      db.storedVideoIds ++ written.filter (fun v => decide (v ∉ db.storedVideoIds)) }

/-- The value `_process_category` hands back to `run`. -/
structure CatResult where
  summary : Summary
  cat : Cat
  km : APIKeyManager
  db : DB

/-- Embeds `_process_category` (main_worker.py lines 143-328): run the `try` body;
on an exception append its message to the summary's errors and leave the
category untouched. -/
def _process_category {CR VR AD : Type} (env : CatEnv CR VR AD) (today : Nat)
    (cat : Cat) (km : APIKeyManager) (db : DB) : CatResult :=
  match catBody env today cat km db.leads with
  | Except.error f =>
      ⟨{ f.summary with errors := f.summary.errors ++ [f.msg] }, cat, f.km,
       { leads := db.leads, storedVideoIds := (applyWrites db f.written).storedVideoIds }⟩
  | Except.ok o =>
      ⟨o.summary, o.cat, o.km,
       { leads := o.leads, storedVideoIds := (applyWrites db o.written).storedVideoIds }⟩

/-- The orchestrator loop of `run` (main_worker.py lines 384-397): process
the categories sequentially, collecting `(summary, category)` pairs, and halt
early when the pool reports zero active keys after a category. -/
def runCategories {CR VR AD : Type} (today : Nat) :
    List (Cat × CatEnv CR VR AD) → APIKeyManager → DB →
      List (Summary × Cat) × APIKeyManager × DB
  | [], km, db => ([], km, db)
  | (cat, env) :: rest, km, db =>
    if (status today (_process_category env today cat km db).km).1.active = 0 then
      ([((_process_category env today cat km db).summary,
         (_process_category env today cat km db).cat)],
       (status today (_process_category env today cat km db).km).2,
       (_process_category env today cat km db).db)
    else
      (((_process_category env today cat km db).summary,
        (_process_category env today cat km db).cat) ::
         (runCategories today rest
           (status today (_process_category env today cat km db).km).2
           (_process_category env today cat km db).db).1,
       (runCategories today rest
         (status today (_process_category env today cat km db).km).2
         (_process_category env today cat km db).db).2)

/-- A concrete category row. -/
def catW : Cat := ⟨1, "Music", "music", none, 5, true⟩

/-- An empty persisted state. -/
def dbW : DB := ⟨[], []⟩

/-- A category environment whose channel detail-fetch stage raises. -/
def envFail : CatEnv Unit Unit Unit :=
  { matrixJobs := [⟨"q1", "US", "en", "Music"⟩],
    searchBatches := [Except.ok [⟨"v1", "c1", none⟩]],
    fetch_channels := fun _ _ => Except.error ("boom"),
    fetch_videos := fun _ _ => Except.ok [()],
    scrape_all_about := fun _ => Except.ok (),
    transform_all := fun _ _ _ _ => Except.ok ⟨[], [], []⟩,
    bulk_write := fun _ => Except.ok (),
    write_stats := fun _ => Except.ok () }

/-- A category environment whose video detail-fetch stage reports, through
its error message, whether it was handed the already-persisted id "v1". -/
def env4 : CatEnv Unit Unit Unit :=
  { matrixJobs := [⟨"q1", "US", "en", "Music"⟩],
    searchBatches := [Except.ok [⟨"v1", "c1", none⟩]],
    fetch_channels := fun _ _ => Except.ok [()],
    fetch_videos := fun _ ids =>
      if ("v1") ∈ ids then Except.error ("detail fetch received persisted video id v1")
      else Except.ok [()],
    scrape_all_about := fun _ => Except.ok (),
    transform_all := fun _ _ _ _ => Except.ok ⟨[], [], []⟩,
    bulk_write := fun _ => Except.ok (),
    write_stats := fun _ => Except.ok () }

/-- Persisted state that already contains video "v1". -/
def db4 : DB := ⟨[], ["v1"]⟩

/-! Theorems. -/

theorem dailyReset_resetDate (today : Nat) (m : APIKeyManager) :
    (dailyResetIfNeeded today m).resetDate = today := by
  unfold dailyResetIfNeeded
  split
  · rfl
  · next h => exact (not_ne_iff.mp h).symm

theorem dailyReset_of_eq (today : Nat) (m : APIKeyManager) (h : m.resetDate = today) :
    dailyResetIfNeeded today m = m := by
  unfold dailyResetIfNeeded
  split
  · next hne => exact absurd h.symm hne
  · rfl

theorem selectKey_exhausted (m : APIKeyManager) :
    ((selectKey m).2).exhausted = m.exhausted := by
  unfold selectKey
  split
  · rfl
  · split <;> rfl

theorem selectKey_keys (m : APIKeyManager) :
    ((selectKey m).2).keys = m.keys := by
  unfold selectKey
  split
  · rfl
  · split <;> rfl

theorem selectKey_resetDate (m : APIKeyManager) :
    ((selectKey m).2).resetDate = m.resetDate := by
  unfold selectKey
  split
  · rfl
  · split <;> rfl

theorem selectKey_some_not_exhausted (m : APIKeyManager) (k : String)
    (h : (selectKey m).1 = some k) : k ∉ m.exhausted := by
  unfold selectKey at h
  split at h
  · simp at h
  · rename_i hne
    split at h
    · rename_i off hoff
      have hp := List.find?_some hoff
      simp only [decide_eq_true_eq] at hp
      have hk : k = m.keys.getD ((m.currentIndex % m.keys.length + off) % m.keys.length) blank := by
        simpa using h.symm
      rw [hk]
      exact hp
    · simp at h

theorem selectKey_none_of_all_exhausted (m : APIKeyManager)
    (h : ∀ k ∈ m.keys, k ∈ m.exhausted) : (selectKey m).1 = none := by
  have hav : availableKeys m = [] := by
    refine List.filter_eq_nil_iff.mpr ?_
    intro a ha
    simp only [decide_eq_true_eq, Decidable.not_not]
    exact h a ha
  unfold selectKey
  rw [hav]
  rfl

theorem findOffset_zero (m : APIKeyManager) (start : Nat) (hn : 0 < m.keys.length)
    (h0 : m.keys.getD ((start + 0) % m.keys.length) blank ∉ m.exhausted) :
    findOffset m start m.keys.length = some 0 := by
  unfold findOffset
  obtain ⟨n, hn'⟩ : ∃ n, m.keys.length = n + 1 := ⟨m.keys.length - 1, by omega⟩
  rw [hn', List.range_succ_eq_map]
  refine List.find?_cons_of_pos _ ?_
  rw [hn'] at h0
  simpa using h0

theorem selectKey_current_active (m : APIKeyManager) (hn : 0 < m.keys.length)
    (hcur : m.keys.getD (m.currentIndex % m.keys.length) blank ∉ m.exhausted) :
    (selectKey m).1 = some (m.keys.getD (m.currentIndex % m.keys.length) blank) ∧
    (selectKey m).2.currentIndex = m.currentIndex % m.keys.length ∧
    (selectKey m).2.usage
      = incUsage m.usage (m.keys.getD (m.currentIndex % m.keys.length) blank) := by
  have hmm : (m.currentIndex % m.keys.length + 0) % m.keys.length
      = m.currentIndex % m.keys.length := by
    rw [Nat.add_zero]
    exact Nat.mod_mod_of_dvd _ dvd_rfl
  have hkey : m.keys.getD (m.currentIndex % m.keys.length) blank ∈ m.keys := by
    have hlt : m.currentIndex % m.keys.length < m.keys.length := Nat.mod_lt _ hn
    rw [List.getD_eq_getElem m.keys blank hlt]
    exact List.getElem_mem hlt
  have hav : ((availableKeys m).isEmpty) = false := by
    have hmem : m.keys.getD (m.currentIndex % m.keys.length) blank ∈ availableKeys m := by
      unfold availableKeys
      rw [List.mem_filter]
      exact ⟨hkey, by simpa using hcur⟩
    cases hA : availableKeys m with
    | nil => rw [hA] at hmem; simp at hmem
    | cons a l => rfl
  have hfo : findOffset m (m.currentIndex % m.keys.length) m.keys.length = some 0 := by
    refine findOffset_zero m _ hn ?_
    rw [hmm]
    exact hcur
  unfold selectKey
  rw [hav]
  simp only [Bool.false_eq_true, if_false, hfo, hmm]
  exact ⟨trivial, trivial, trivial⟩

theorem mark_exhausted_mem (key : String) (m : APIKeyManager) :
    key ∈ (mark_exhausted key m).exhausted := by
  unfold mark_exhausted
  exact List.mem_insert_self key m.exhausted

theorem mark_exhausted_mono (key k : String) (m : APIKeyManager)
    (h : k ∈ m.exhausted) : k ∈ (mark_exhausted key m).exhausted := by
  unfold mark_exhausted
  exact List.mem_insert_of_mem h

theorem get_key_resetDate (today : Nat) (m : APIKeyManager) :
    ((get_key today m).2).resetDate = today := by
  unfold get_key
  rw [selectKey_resetDate, dailyReset_resetDate]

theorem get_key_exhausted_of_eq (today : Nat) (m : APIKeyManager)
    (h : m.resetDate = today) : ((get_key today m).2).exhausted = m.exhausted := by
  unfold get_key
  rw [dailyReset_of_eq today m h, selectKey_exhausted]

theorem get_key_some_not_exhausted (today : Nat) (m : APIKeyManager) (k : String)
    (h : m.resetDate = today) (hk : (get_key today m).1 = some k) : k ∉ m.exhausted := by
  unfold get_key at hk
  rw [dailyReset_of_eq today m h] at hk
  exact selectKey_some_not_exhausted m k hk

theorem poolStep_resetDate (today : Nat) (m : APIKeyManager) (op : PoolOp)
    (h : m.resetDate = today) : ((poolStep today m op).1).resetDate = today := by
  cases op with
  | getKey => exact get_key_resetDate today m
  | markEx k => exact h

theorem poolStep_exhausted_mono (today : Nat) (m : APIKeyManager) (op : PoolOp) (k : String)
    (h : m.resetDate = today) (hk : k ∈ m.exhausted) :
    k ∈ ((poolStep today m op).1).exhausted := by
  cases op with
  | getKey =>
      show k ∈ ((get_key today m).2).exhausted
      rw [get_key_exhausted_of_eq today m h]
      exact hk
  | markEx j => exact mark_exhausted_mono j k m hk

theorem poolTrace_ne_of_exhausted (today : Nat) (m : APIKeyManager) (k : String)
    (ops : List PoolOp) (h : m.resetDate = today) (hk : k ∈ m.exhausted) :
    ∀ r ∈ poolTrace today m ops, r ≠ some k := by
  induction ops generalizing m with
  | nil => intro r hr; simp [poolTrace] at hr
  | cons op ops ih =>
      intro r hr
      simp only [poolTrace, List.mem_cons] at hr
      rcases hr with hr | hr
      · subst hr
        cases op with
        | getKey =>
            intro hc
            exact (get_key_some_not_exhausted today m k h hc) hk
        | markEx j => simp [poolStep]
      · exact ih (poolStep today m op).1 (poolStep_resetDate today m op h)
          (poolStep_exhausted_mono today m op k h hk) r hr

/-- C2: within one UTC day (the pool's reset date equals `today` throughout),
no `get_key` call that comes after a `mark_exhausted k` call ever returns `k`;
and when every key of the pool is exhausted, `get_key` returns `none` rather
than failing. -/
theorem acquire_never_returns_exhausted (today : Nat) (m : APIKeyManager) (k : String)
    (pre post : List PoolOp) (h : m.resetDate = today) :
    (∀ r ∈ (poolTrace today m (pre ++ PoolOp.markEx k :: post)).drop (pre.length + 1),
        r ≠ some k)
  ∧ ((∀ j ∈ m.keys, j ∈ m.exhausted) → (get_key today m).1 = none) := by
  constructor
  · induction pre generalizing m with
    | nil =>
        intro r hr
        simp only [List.nil_append, List.length_nil, Nat.zero_add, poolTrace,
          List.drop_succ_cons, List.drop_zero] at hr
        exact poolTrace_ne_of_exhausted today (poolStep today m (PoolOp.markEx k)).1 k post
          (poolStep_resetDate today m (PoolOp.markEx k) h)
          (mark_exhausted_mem k m) r hr
    | cons op pre ih =>
        intro r hr
        simp only [List.cons_append, poolTrace, List.length_cons, List.drop_succ_cons] at hr
        exact ih (poolStep today m op).1 (poolStep_resetDate today m op h) r
          (by simpa using hr)
  · intro hall
    unfold get_key
    rw [dailyReset_of_eq today m h]
    exact selectKey_none_of_all_exhausted m hall

/-- Witness for `acquire_never_returns_exhausted`: after `mark_exhausted "A"`,
the next `get_key` returns something other than `some "A"`. -/
theorem acquire_never_returns_exhausted_witness :
    (poolTrace 0 m2w [PoolOp.markEx ("A"), PoolOp.getKey]).getD 1 none ≠ some ("A") :=
  (acquire_never_returns_exhausted 0 m2w ("A") [] [PoolOp.getKey] rfl).1 _ (by decide)

/-- C6 counterexample: calling `mark_exhausted` on day 1 ≠ reset date 0 does
not reset the pool — `mark_exhausted` never calls `_daily_reset_if_needed`
(key_manager.py lines 116-127), so the reset date stays 0, key "A" stays
exhausted and its usage count stays 5, contradicting the claim that every
`markExhausted` call first clears the exhausted set, zeroes the usage counts
and sets the reset date to today. -/
theorem mark_exhausted_no_daily_reset :
    (mark_exhausted ("B") m6).resetDate = 0 ∧
    ("A") ∈ (mark_exhausted ("B") m6).exhausted ∧
    (mark_exhausted ("B") m6).usage ("A") = 5 ∧
    ¬ ((mark_exhausted ("B") m6).resetDate = 1 ∧
       (mark_exhausted ("B") m6).usage ("A") = 0) := by
  refine ⟨rfl, by decide, by decide, ?_⟩
  intro hc
  exact absurd hc.1 (by decide)

/-- C6 amended: the daily reset happens before every `get_key` and `status`
call (but not before `mark_exhausted`): when `today` differs from the stored
reset date, `status` reports reset date `today`, zero exhausted keys and zero
usage for every key, and `get_key` clears the exhausted set — so a previously
exhausted credential is acquirable again: on a nonempty pool it returns
`some` key. -/
theorem daily_reset_on_acquire_and_status (today : Nat) (m : APIKeyManager)
    (h : today ≠ m.resetDate) :
    ((status today m).1.reset_date = today ∧ (status today m).1.exhausted = 0 ∧
      ∀ k, (status today m).1.usage_per_key k = 0)
  ∧ ((get_key today m).2.exhausted = [])
  ∧ (m.keys ≠ [] → ((get_key today m).1).isSome) := by
  have hreset : dailyResetIfNeeded today m =
      { m with exhausted := [], usage := fun _ => 0, resetDate := today } := by
    unfold dailyResetIfNeeded
    rw [if_pos h]
  refine ⟨⟨?_, ?_, ?_⟩, ?_, ?_⟩
  · simp [status, hreset]
  · simp [status, hreset]
  · intro k; simp [status, hreset]
  · unfold get_key
    rw [selectKey_exhausted, hreset]
  · intro hne
    unfold get_key
    rw [hreset]
    set m1 : APIKeyManager := { m with exhausted := [], usage := fun _ => 0, resetDate := today }
      with hm1
    have hn : 0 < m1.keys.length := by
      simpa [hm1] using List.length_pos.mpr hne
    have hcur : m1.keys.getD (m1.currentIndex % m1.keys.length) blank ∉ m1.exhausted := by
      simp [hm1]
    rcases selectKey_current_active m1 hn hcur with ⟨h1, _, _⟩
    rw [h1]
    rfl

/-- Witness for `daily_reset_on_acquire_and_status` at the concrete stale pool
`m6` on day 1. -/
theorem daily_reset_on_acquire_and_status_witness :
    (status 1 m6).1.exhausted = 0 ∧ ((get_key 1 m6).1).isSome :=
  ⟨(daily_reset_on_acquire_and_status 1 m6 (by decide)).1.2.1,
   (daily_reset_on_acquire_and_status 1 m6 (by decide)).2.2 (by decide)⟩

/-- C7 counterexample: on a fresh two-key pool, two successive `get_key` calls
both return key "A" and leave `_current_index` at 0 — `get_key` stores the
returned key's own index (`self._current_index = idx`, key_manager.py line
110) instead of advancing past it, so successive calls do not cycle through
the non-exhausted credentials and the index never advances while the current
key stays live. -/
theorem get_key_does_not_advance :
    (get_key 0 m7).1 = some ("A") ∧
    (get_key 0 m7).2.currentIndex = 0 ∧
    (get_key 0 (get_key 0 m7).2).1 = some ("A") ∧
    (get_key 0 (get_key 0 m7).2).2.currentIndex = 0 := by decide

/-- C7 amended: within one day, whenever the key at the stored index is not
exhausted, `get_key` returns that same key again, keeps the index at that
key's position, and increments that key's usage count by one; rotation to a
different credential can only happen once the current one is exhausted. -/
theorem get_key_sticky (today : Nat) (m : APIKeyManager) (h : m.resetDate = today)
    (hn : 0 < m.keys.length)
    (hcur : m.keys.getD (m.currentIndex % m.keys.length) blank ∉ m.exhausted) :
    (get_key today m).1 = some (m.keys.getD (m.currentIndex % m.keys.length) blank) ∧
    (get_key today m).2.currentIndex = m.currentIndex % m.keys.length ∧
    (get_key today m).2.usage (m.keys.getD (m.currentIndex % m.keys.length) blank)
      = m.usage (m.keys.getD (m.currentIndex % m.keys.length) blank) + 1 := by
  unfold get_key
  rw [dailyReset_of_eq today m h]
  rcases selectKey_current_active m hn hcur with ⟨h1, h2, h3⟩
  refine ⟨h1, h2, ?_⟩
  rw [h3]
  simp [incUsage]

/-- Witness for `get_key_sticky` at the fresh two-key pool. -/
theorem get_key_sticky_witness :
    (get_key 0 m7).1 = some (m7.keys.getD (m7.currentIndex % m7.keys.length) blank) ∧
    (get_key 0 m7).2.currentIndex = m7.currentIndex % m7.keys.length ∧
    (get_key 0 m7).2.usage (m7.keys.getD (m7.currentIndex % m7.keys.length) blank)
      = m7.usage (m7.keys.getD (m7.currentIndex % m7.keys.length) blank) + 1 :=
  get_key_sticky 0 m7 rfl (by decide) (by decide)

/-- C8: the lookback resolver is a pure function of `(now, lastFetchedAt)`
with exactly three cases: no previous run resolves to `now - 7 days`; a gap
of more than 48 hours resolves to `now - (gap_hours + 24) hours` where
`gap_hours` is the whole number of hours elapsed (in particular a category
last run exactly 50 hours ago resolves to `now - 74 hours`); otherwise it
resolves to `now - 26 hours`. -/
theorem lookback_resolver_cases (now last : Nat) :
    (_get_lookback now none = now - 7 * 86400)
  ∧ (48 * 3600 < now - last →
      _get_lookback now (some last) = now - ((now - last) / 3600 + 24) * 3600)
  ∧ (now - last ≤ 48 * 3600 → _get_lookback now (some last) = now - 26 * 3600)
  ∧ (50 * 3600 ≤ now → _get_lookback now (some (now - 50 * 3600)) = now - 74 * 3600) := by
  refine ⟨rfl, ?_, ?_, ?_⟩
  · intro h
    simp only [_get_lookback, LOOKBACK_STALE_THRESHOLD_HOURS]
    rw [if_pos h]
  · intro h
    simp only [_get_lookback, LOOKBACK_STALE_THRESHOLD_HOURS, LOOKBACK_NORMAL_HOURS]
    rw [if_neg (by omega)]
  · intro h
    have hg : now - (now - 50 * 3600) = 50 * 3600 := by omega
    have hd : (50 * 3600 : Nat) / 3600 = 50 := by omega
    simp only [_get_lookback, LOOKBACK_STALE_THRESHOLD_HOURS, hg, hd]
    rw [if_pos (by norm_num)]

/-- Witness for `lookback_resolver_cases`: a category last fetched at time 0
seen from `now = 10⁶` (gap ≈ 277 h) resolves through the stale branch. -/
theorem lookback_resolver_cases_witness :
    _get_lookback 1000000 (some 0) = 1000000 - ((1000000 - 0) / 3600 + 24) * 3600 :=
  (lookback_resolver_cases 1000000 0).2.1 (by norm_num)

theorem processItems_length (seen : List String) (results : List SearchResult)
    (items : List RawItem) :
    (processItems seen results items).2.length ≤ results.length + items.length := by
  induction items generalizing seen results with
  | nil => simp [processItems]
  | cons item rest ih =>
      unfold processItems
      split
      · refine le_trans (ih _ _) ?_
        simp only [List.length_append, List.length_cons, List.length_nil]
        omega
      · refine le_trans (ih seen results) ?_
        simp only [List.length_cons]
        omega

theorem searchLoop_bounds (today et : Nat) (trace : List ApiResponse) (st : SearchState)
    (hres : st.results.length ≤ 50 * st.pagesFetched)
    (hp : st.pagesFetched ≤ MAX_PAGES_PER_JOB)
    (htrace : ∀ r ∈ trace, pageSizeOK r = true) :
    (searchLoop today et st trace).2.results.length
      ≤ 50 * (searchLoop today et st trace).2.pagesFetched
    ∧ (searchLoop today et st trace).2.pagesFetched ≤ MAX_PAGES_PER_JOB := by
  induction trace generalizing st with
  | nil =>
      unfold searchLoop
      split
      · split
        · exact ⟨hres, hp⟩
        · exact ⟨hres, hp⟩
      · exact ⟨hres, hp⟩
  | cons resp rest ih =>
      have htr : ∀ r ∈ rest, pageSizeOK r = true :=
        fun r hr => htrace r (List.mem_cons_of_mem _ hr)
      cases resp with
      | timeout =>
          unfold searchLoop
          dsimp only
          split
          · split
            · exact ⟨hres, hp⟩
            · exact ih _ hres hp htr
          · exact ⟨hres, hp⟩
      | netError =>
          unfold searchLoop
          dsimp only
          split
          · split
            · exact ⟨hres, hp⟩
            · exact ⟨hres, hp⟩
          · exact ⟨hres, hp⟩
      | httpStatus code items tok =>
          unfold searchLoop
          dsimp only
          split
          · rename_i hguard
            split
            · exact ⟨hres, hp⟩
            · split
              · exact ih _ hres hp htr
              · split
                · exact ih _ hres hp htr
                · split
                  · exact ⟨hres, hp⟩
                  · split
                    · exact ⟨hres, hp⟩
                    · have hitems : items.length ≤ 50 := by
                        have hh := htrace _ (List.mem_cons_self _ _)
                        simpa [pageSizeOK] using hh
                      have hpl := processItems_length st.seen st.results items
                      have hlen : (processItems st.seen st.results items).2.length
                          ≤ 50 * (st.pagesFetched + 1) := by omega
                      have hpage : st.pagesFetched < MAX_PAGES_PER_JOB := hguard.2
                      split
                      · exact ⟨hlen, by dsimp only; omega⟩
                      · exact ih _ hlen (by dsimp only; omega) htr
          · exact ⟨hres, hp⟩

/-- C3: for every target count and every transport trace whose pages respect
the API's 50-items-per-page contract, one run of `search_videos` fetches at
most `MAX_PAGES_PER_JOB = 10` pages and returns at most
`MAX_PAGES_PER_JOB * 50 = 500` results — the effective target is
`min target_count 500` and the loop guard is only checked before a fetch,
but `results ≤ 50 * pages` is invariant, so the cap still holds. -/
theorem search_caps (today : Nat) (km : APIKeyManager) (target_count : Nat)
    (trace : List ApiResponse) (htrace : ∀ r ∈ trace, pageSizeOK r = true) :
    (search_videos today km target_count trace).2.pagesFetched ≤ MAX_PAGES_PER_JOB ∧
    (search_videos today km target_count trace).2.results.length ≤ MAX_PAGES_PER_JOB * 50 := by
  have h := searchLoop_bounds today (min target_count (MAX_PAGES_PER_JOB * 50)) trace
    ⟨km, [], [], none, 0⟩ (by simp) (by simp [MAX_PAGES_PER_JOB]) htrace
  have h1 := h.1
  have h2 := h.2
  unfold search_videos
  refine ⟨h2, ?_⟩
  unfold MAX_PAGES_PER_JOB at *
  omega

/-- Witness for `search_caps` on the concrete one-page trace. -/
theorem search_caps_witness :
    (search_videos 0 kmW 500 traceW).2.pagesFetched ≤ MAX_PAGES_PER_JOB ∧
    (search_videos 0 kmW 500 traceW).2.results.length ≤ MAX_PAGES_PER_JOB * 50 :=
  search_caps 0 kmW 500 traceW (by decide)

theorem processItems_ids (seen : List String) (results : List SearchResult)
    (items : List RawItem)
    (h : ∀ r ∈ results, r.video_id ≠ blank ∧ r.channel_id ≠ blank) :
    ∀ r ∈ (processItems seen results items).2,
      r.video_id ≠ blank ∧ r.channel_id ≠ blank := by
  induction items generalizing seen results with
  | nil => simpa [processItems] using h
  | cons item rest ih =>
      unfold processItems
      split
      · rename_i hcond
        refine ih _ _ ?_
        intro r hr
        rcases List.mem_append.mp hr with hr | hr
        · exact h r hr
        · simp only [List.mem_singleton] at hr
          subst hr
          exact ⟨hcond.1, hcond.2.1⟩
      · exact ih seen results h

theorem searchLoop_ids (today et : Nat) (trace : List ApiResponse) (st : SearchState)
    (h : ∀ r ∈ st.results, r.video_id ≠ blank ∧ r.channel_id ≠ blank) :
    ∀ r ∈ (searchLoop today et st trace).2.results,
      r.video_id ≠ blank ∧ r.channel_id ≠ blank := by
  induction trace generalizing st with
  | nil =>
      unfold searchLoop
      split
      · split
        · exact h
        · exact h
      · exact h
  | cons resp rest ih =>
      cases resp with
      | timeout =>
          unfold searchLoop
          dsimp only
          split
          · split
            · exact h
            · exact ih _ h
          · exact h
      | netError =>
          unfold searchLoop
          dsimp only
          split
          · split
            · exact h
            · exact h
          · exact h
      | httpStatus code items tok =>
          unfold searchLoop
          dsimp only
          split
          · split
            · exact h
            · split
              · exact ih _ h
              · split
                · exact ih _ h
                · split
                  · exact h
                  · split
                    · exact h
                    · split
                      · exact processItems_ids st.seen st.results items h
                      · exact ih _ (processItems_ids st.seen st.results items h)
          · exact h

/-- C10: every element of the list built by `search_videos` has a non-empty
`video_id` and a non-empty `channel_id`: response items whose `videoId` or
`channelId` are missing/empty are silently skipped by the
`if vid and cid` guard and never reach the returned results. -/
theorem search_results_nonempty_ids (today : Nat) (km : APIKeyManager)
    (target_count : Nat) (trace : List ApiResponse) :
    ∀ r ∈ (search_videos today km target_count trace).2.results,
      r.video_id ≠ blank ∧ r.channel_id ≠ blank := by
  unfold search_videos
  refine searchLoop_ids _ _ _ _ ?_
  intro r hr
  simp at hr

/-- Witness for `search_results_nonempty_ids` at the concrete one-page trace:
the surviving result has non-empty ids. -/
theorem search_results_nonempty_ids_witness :
    (⟨"v1", "c1", none⟩ : SearchResult).video_id ≠ blank ∧
    (⟨"v1", "c1", none⟩ : SearchResult).channel_id ≠ blank :=
  search_results_nonempty_ids 0 kmW 500 traceW ⟨"v1", "c1", none⟩ (by decide)

theorem findOffset_mem_range (m : APIKeyManager) (start n off : Nat)
    (h : findOffset m start n = some off) : off < n := by
  unfold findOffset at h
  exact List.mem_range.mp (List.mem_of_find?_eq_some h)

theorem findOffset_not_exhausted (m : APIKeyManager) (start n off : Nat)
    (h : findOffset m start n = some off) :
    m.keys.getD ((start + off) % n) blank ∉ m.exhausted := by
  unfold findOffset at h
  have hp := List.find?_some h
  simpa using hp

theorem selectKey_eq_of_find (m : APIKeyManager) (off : Nat)
    (hne : (availableKeys m).isEmpty = false)
    (hoff : findOffset m (m.currentIndex % m.keys.length) m.keys.length = some off) :
    selectKey m =
      (some (m.keys.getD ((m.currentIndex % m.keys.length + off) % m.keys.length) blank),
       { m with
         currentIndex := (m.currentIndex % m.keys.length + off) % m.keys.length,
         usage := incUsage m.usage
           (m.keys.getD ((m.currentIndex % m.keys.length + off) % m.keys.length) blank) }) := by
  unfold selectKey
  rw [hne, hoff]
  simp

theorem selectKey_some_again (m : APIKeyManager) (k : String)
    (h : (selectKey m).1 = some k) :
    (selectKey ((selectKey m).2)).1 = some k := by
  cases hE : (availableKeys m).isEmpty with
  | true =>
      unfold selectKey at h
      rw [hE] at h
      simp at h
  | false =>
      cases hfo : findOffset m (m.currentIndex % m.keys.length) m.keys.length with
      | none =>
          unfold selectKey at h
          rw [hE, hfo] at h
          simp at h
      | some off =>
          have heq := selectKey_eq_of_find m off hE hfo
          rw [heq] at h
          rw [heq]
          dsimp only at h ⊢
          have hnpos : 0 < m.keys.length := by
            have := findOffset_mem_range m _ _ off hfo
            omega
          have hidxlt : (m.currentIndex % m.keys.length + off) % m.keys.length
              < m.keys.length := Nat.mod_lt _ hnpos
          have hpred := findOffset_not_exhausted m (m.currentIndex % m.keys.length)
            m.keys.length off hfo
          have hmain := selectKey_current_active
            { m with
              currentIndex := (m.currentIndex % m.keys.length + off) % m.keys.length,
              usage := incUsage m.usage
                (m.keys.getD ((m.currentIndex % m.keys.length + off) % m.keys.length) blank) }
            (by simpa using hnpos)
            (by
              dsimp only
              rw [Nat.mod_eq_of_lt hidxlt]
              exact hpred)
          rw [hmain.1]
          dsimp only
          rw [Nat.mod_eq_of_lt hidxlt]
          exact h

theorem get_key_isSome_again (today : Nat) (m : APIKeyManager)
    (h : m.resetDate = today) (hs : ((get_key today m).1).isSome) :
    ((get_key today ((get_key today m).2)).1).isSome := by
  obtain ⟨k, hk⟩ := Option.isSome_iff_exists.mp hs
  unfold get_key at hk ⊢
  rw [dailyReset_of_eq today m h] at hk
  rw [dailyReset_of_eq today m h]
  have h3 : ((selectKey m).2).resetDate = today := by
    rw [selectKey_resetDate]
    exact h
  rw [dailyReset_of_eq today _ h3]
  rw [selectKey_some_again m k hk]
  rfl

/-- C5 counterexample: driving `search_videos` with 100 consecutive timeout
responses never aborts the job — the executor is still in its loop with zero
pages fetched and nothing collected after all 100 attempts (outcome
`outOfTrace`), because the `except Timeout` arm (youtube_search.py lines
103-106) sleeps and `continue`s with no retry counter; there is no retry
budget whose exhaustion would abort the job, contradicting the claim that a
run terminates when the transport fails on every attempt. -/
theorem search_timeout_unbounded_retry :
    (search_videos 0 kmW 500 (List.replicate 100 ApiResponse.timeout)).1
      = RunOutcome.outOfTrace ∧
    (search_videos 0 kmW 500 (List.replicate 100 ApiResponse.timeout)).2.results = [] ∧
    (search_videos 0 kmW 500 (List.replicate 100 ApiResponse.timeout)).2.pagesFetched = 0 := by
  decide

theorem searchLoop_timeouts_pending (today et : Nat) (n : Nat) : ∀ (st : SearchState),
    st.km.resetDate = today →
    st.results.length < et → st.pagesFetched < MAX_PAGES_PER_JOB →
    ((get_key today st.km).1).isSome →
    (searchLoop today et st (List.replicate n ApiResponse.timeout)).1 = RunOutcome.outOfTrace
    ∧ (searchLoop today et st (List.replicate n ApiResponse.timeout)).2.results = st.results
    ∧ (searchLoop today et st (List.replicate n ApiResponse.timeout)).2.pagesFetched
        = st.pagesFetched := by
  induction n with
  | zero =>
      intro st hreset hgr hgp hkey
      obtain ⟨k, hk⟩ := Option.isSome_iff_exists.mp hkey
      rw [List.replicate_zero]
      unfold searchLoop
      rw [if_pos ⟨hgr, hgp⟩, hk]
      exact ⟨rfl, rfl, rfl⟩
  | succ n ih =>
      intro st hreset hgr hgp hkey
      obtain ⟨k, hk⟩ := Option.isSome_iff_exists.mp hkey
      rw [List.replicate_succ]
      unfold searchLoop
      dsimp only
      rw [if_pos ⟨hgr, hgp⟩, hk]
      exact ih _ (get_key_resetDate today st.km) hgr hgp
        (get_key_isSome_again today st.km hreset hkey)

/-- C5 amended: on a timeout the executor retries the same page with no retry
budget at all — after any number `n` of consecutive timeouts it is still
retrying, with the collected results and page count unchanged, so a transport
that times out on every attempt makes the loop spin forever; whereas on any
other transport error (`requests.exceptions.RequestException`) the executor
aborts the job immediately and returns the partial results collected so
far. -/
theorem search_transient_behaviour (today et : Nat) (st : SearchState) (n : Nat)
    (hreset : st.km.resetDate = today)
    (hguard : st.results.length < et ∧ st.pagesFetched < MAX_PAGES_PER_JOB)
    (hkey : ((get_key today st.km).1).isSome) :
    ((searchLoop today et st (List.replicate n ApiResponse.timeout)).1 = RunOutcome.outOfTrace
     ∧ (searchLoop today et st (List.replicate n ApiResponse.timeout)).2.results = st.results
     ∧ (searchLoop today et st (List.replicate n ApiResponse.timeout)).2.pagesFetched
         = st.pagesFetched)
  ∧ (∀ rest, (searchLoop today et st (ApiResponse.netError :: rest)).1 = RunOutcome.finished
       ∧ (searchLoop today et st (ApiResponse.netError :: rest)).2.results = st.results) := by
  refine ⟨searchLoop_timeouts_pending today et n st hreset hguard.1 hguard.2 hkey, ?_⟩
  intro rest
  obtain ⟨k, hk⟩ := Option.isSome_iff_exists.mp hkey
  unfold searchLoop
  dsimp only
  rw [if_pos hguard, hk]
  exact ⟨rfl, rfl⟩

/-- Witness for `search_transient_behaviour`: a fresh state over the one-key
pool, three timeouts in a row, still pending. -/
theorem search_transient_behaviour_witness :
    (searchLoop 0 500 ⟨kmW, [], [], none, 0⟩ (List.replicate 3 ApiResponse.timeout)).1
      = RunOutcome.outOfTrace :=
  (search_transient_behaviour 0 500 ⟨kmW, [], [], none, 0⟩ 3 rfl (by decide) (by decide)).1.1

theorem leadExists_iff (leads : List Lead) (vid : String) :
    leadExists leads vid = true ↔ ∃ l ∈ leads, l.video_id = vid := by
  unfold leadExists
  simp

theorem leadPass_mem (channels : List ChannelT) (videos : List VideoT)
    (leads : List Lead) (vid : String) :
    (∃ l ∈ (leadPass channels leads videos).1, l.video_id = vid) ↔
    ((∃ l ∈ leads, l.video_id = vid) ∨
     (∃ v ∈ videos, v.video_id = vid ∧ videoHasSignal channels v = true)) := by
  induction videos generalizing leads with
  | nil => simp [leadPass]
  | cons v rest ih =>
      unfold leadPass
      split
      · rename_i hex
        rw [ih]
        constructor
        · rintro (h | ⟨u, hu, huv⟩)
          · exact Or.inl h
          · exact Or.inr ⟨u, List.mem_cons_of_mem _ hu, huv⟩
        · rintro (h | ⟨u, hu, huv, hus⟩)
          · exact Or.inl h
          · rcases List.mem_cons.mp hu with hu | hu
            · subst hu
              rw [huv] at hex
              exact Or.inl ((leadExists_iff leads vid).mp hex)
            · exact Or.inr ⟨u, hu, huv, hus⟩
      · split
        · rename_i hfind
          rw [ih]
          constructor
          · rintro (h | ⟨u, hu, huv⟩)
            · exact Or.inl h
            · exact Or.inr ⟨u, List.mem_cons_of_mem _ hu, huv⟩
          · rintro (h | ⟨u, hu, huv, hus⟩)
            · exact Or.inl h
            · rcases List.mem_cons.mp hu with hu | hu
              · subst hu
                unfold videoHasSignal at hus
                rw [hfind] at hus
                simp at hus
              · exact Or.inr ⟨u, hu, huv, hus⟩
        · rename_i ch hfind
          split
          · rename_i hfalsy
            rw [ih]
            constructor
            · rintro (h | ⟨u, hu, huv⟩)
              · exact Or.inl h
              · exact Or.inr ⟨u, List.mem_cons_of_mem _ hu, huv⟩
            · rintro (h | ⟨u, hu, huv, hus⟩)
              · exact Or.inl h
              · rcases List.mem_cons.mp hu with hu | hu
                · subst hu
                  unfold videoHasSignal at hus
                  rw [hfind] at hus
                  dsimp only at hus
                  rw [hfalsy] at hus
                  simp at hus
                · exact Or.inr ⟨u, hu, huv, hus⟩
          · rename_i hfalsy
            dsimp only
            rw [ih]
            have hsig : videoHasSignal channels v = true := by
              unfold videoHasSignal
              rw [hfind]
              dsimp only
              simp only [Bool.not_eq_true] at hfalsy
              rw [hfalsy]
              rfl
            constructor
            · rintro (⟨l, hl, hlv⟩ | ⟨u, hu, huv, hus⟩)
              · rcases List.mem_append.mp hl with hl2 | hl2
                · exact Or.inl ⟨l, hl2, hlv⟩
                · simp only [List.mem_singleton] at hl2
                  subst hl2
                  exact Or.inr ⟨v, List.mem_cons_self _ _, hlv, hsig⟩
              · exact Or.inr ⟨u, List.mem_cons_of_mem _ hu, huv, hus⟩
            · rintro (⟨l, hl, hlv⟩ | ⟨u, hu, huv, hus⟩)
              · exact Or.inl ⟨l, List.mem_append_left _ hl, hlv⟩
              · rcases List.mem_cons.mp hu with hu2 | hu2
                · subst hu2
                  refine Or.inl ⟨mkLead ch u, List.mem_append_right _ ?_, huv⟩
                  simp
                · exact Or.inr ⟨u, hu2, huv, hus⟩

theorem leadPass_nodup (channels : List ChannelT) (videos : List VideoT)
    (leads : List Lead)
    (hnodup : (leads.map (fun l => l.video_id)).Nodup) :
    ((leadPass channels leads videos).1.map (fun l => l.video_id)).Nodup := by
  induction videos generalizing leads with
  | nil => simpa [leadPass] using hnodup
  | cons v rest ih =>
      unfold leadPass
      split
      · exact ih leads hnodup
      · rename_i hex
        split
        · exact ih leads hnodup
        · split
          · exact ih leads hnodup
          · dsimp only
            refine ih _ ?_
            rw [List.map_append]
            rw [List.nodup_append]
            refine ⟨hnodup, by simp, ?_⟩
            intro a ha hb
            simp only [List.map_cons, List.map_nil, List.mem_singleton] at hb
            rcases List.mem_map.mp ha with ⟨l, hl, hla⟩
            have : leadExists leads v.video_id = true := by
              rw [leadExists_iff]
              refine ⟨l, hl, ?_⟩
              rw [hla, hb]
              rfl
            exact hex this

/-- C1: after the lead-gate pass over a batch, (i) the lead store still has at
most one lead per video identity (given it had at most one before), and
(ii) a lead for identity `vid` exists afterwards exactly when one existed
before or some batch item with that identity carries a contact signal (its
channel is in the payload with a truthy email or instagram) — hence for two
batch items with the same fresh identity exactly one lead is created. -/
theorem lead_gate_exactly_once (channels : List ChannelT) (videos : List VideoT)
    (leads : List Lead)
    (hnodup : (leads.map (fun l => l.video_id)).Nodup) :
    (((leadPass channels leads videos).1.map (fun l => l.video_id)).Nodup)
  ∧ (∀ vid, (∃ l ∈ (leadPass channels leads videos).1, l.video_id = vid) ↔
      ((∃ l ∈ leads, l.video_id = vid) ∨
       (∃ v ∈ videos, v.video_id = vid ∧ videoHasSignal channels v = true)))
  ∧ (∀ vid, ((leadPass channels leads videos).1.map (fun l => l.video_id)).count vid ≤ 1) := by
  refine ⟨leadPass_nodup channels videos leads hnodup,
    fun vid => leadPass_mem channels videos leads vid,
    fun vid => List.nodup_iff_count_le_one.mp (leadPass_nodup channels videos leads hnodup) vid⟩

/-- Witness for `lead_gate_exactly_once`: the duplicate batch yields at most
one lead for identity "v1", and a lead for "v1" exists after the pass. -/
theorem lead_gate_exactly_once_witness :
    (((leadPass chansW [] vidsW).1.map (fun l => l.video_id)).count ("v1") ≤ 1) ∧
    (∃ l ∈ (leadPass chansW [] vidsW).1, l.video_id = "v1") :=
  ⟨(lead_gate_exactly_once chansW vidsW [] (by decide)).2.2 ("v1"),
   ((lead_gate_exactly_once chansW vidsW [] (by decide)).2.1 ("v1")).mpr
     (Or.inr ⟨⟨"v1", "c1", "T", none⟩, by decide, rfl, by decide⟩)⟩

theorem catBody_cat_cases {CR VR AD : Type} (env : CatEnv CR VR AD) (today : Nat)
    (cat : Cat) (km : APIKeyManager) (leads : List Lead) :
    ∀ o, catBody env today cat km leads = Except.ok o →
      o.cat = cat ∨ o.cat = { cat with last_fetched_at := some today } := by
  intro o ho
  unfold catBody at ho
  dsimp only at ho
  split at ho
  · injection ho with h
    subst h
    exact Or.inl rfl
  · split at ho
    · injection ho with h
      subst h
      exact Or.inl rfl
    · split at ho
      · exact Except.noConfusion ho
      · split at ho
        · exact Except.noConfusion ho
        · split at ho
          · injection ho with h
            subst h
            exact Or.inl rfl
          · split at ho
            · exact Except.noConfusion ho
            · split at ho
              · exact Except.noConfusion ho
              · split at ho
                · exact Except.noConfusion ho
                · split at ho
                  · exact Except.noConfusion ho
                  · injection ho with h
                    subst h
                    exact Or.inr rfl

/-- C9: (i) any exception raised inside a category's pipeline is caught by
`_process_category`: its message is appended to that category's summary
errors, the category row — in particular `last_fetched_at` — is returned
unchanged, and the lead store is untouched; (ii) the only mutation the
processor ever applies to the category is setting `last_fetched_at := today`
(and only when the body completed without a fatal error); (iii) the
orchestrator then proceeds to the remaining categories whenever active keys
remain, rather than propagating the failure. -/
theorem category_failure_isolated {CR VR AD : Type} (env : CatEnv CR VR AD) (today : Nat)
    (cat : Cat) (km : APIKeyManager) (db : DB) :
    (∀ f, catBody env today cat km db.leads = Except.error f →
        (_process_category env today cat km db).summary.errors = f.summary.errors ++ [f.msg]
        ∧ (_process_category env today cat km db).cat = cat
        ∧ (_process_category env today cat km db).db.leads = db.leads)
  ∧ ((_process_category env today cat km db).cat = cat ∨
     (_process_category env today cat km db).cat = { cat with last_fetched_at := some today })
  ∧ (∀ rest, (status today (_process_category env today cat km db).km).1.active ≠ 0 →
      (runCategories today ((cat, env) :: rest) km db).1 =
        ((_process_category env today cat km db).summary,
         (_process_category env today cat km db).cat) ::
        (runCategories today rest (status today (_process_category env today cat km db).km).2
          (_process_category env today cat km db).db).1) := by
  refine ⟨?_, ?_, ?_⟩
  · intro f hf
    unfold _process_category
    rw [hf]
    exact ⟨rfl, rfl, rfl⟩
  · unfold _process_category
    cases hb : catBody env today cat km db.leads with
    | error f => exact Or.inl rfl
    | ok o =>
        dsimp only
        exact catBody_cat_cases env today cat km db.leads o hb
  · intro rest hactive
    conv_lhs => rw [runCategories]
    rw [if_neg hactive]

/-- Witness for `category_failure_isolated`: a concrete failing fetch stage is
logged, the category row is unchanged, and the orchestrator still emits the
category's summary entry and would continue. -/
theorem category_failure_isolated_witness :
    (_process_category envFail 0 catW kmW dbW).cat = catW ∧
    (_process_category envFail 0 catW kmW dbW).summary.errors = [] ++ [("boom")] ∧
    (runCategories 0 [(catW, envFail)] kmW dbW).1 =
      [((_process_category envFail 0 catW kmW dbW).summary,
        (_process_category envFail 0 catW kmW dbW).cat)] := by
  have h := category_failure_isolated envFail 0 catW kmW dbW
  have h1 := h.1 ⟨"boom", ⟨"Music", 1, 1, 1, 1, 0, 0, []⟩, [], (get_key 0 kmW).2⟩ rfl
  refine ⟨h1.2.1, h1.1, ?_⟩
  rw [h.2.2 [] (by decide)]
  rfl

/-- C4 counterexample: with "v1" already persisted and a raw batch consisting
of exactly that video, the pipeline still hands "v1" to the detail-fetch
stage (the probing fetch collaborator fires, leaving its message in the
summary): `_process_category` calls only the in-memory `_deduplicate`
(main_worker.py line 213), never the storage-checking `dedupe_existing`, so
already-persisted items are NOT excluded before the expensive stages. -/
theorem persisted_id_reaches_detail_fetch :
    ("v1") ∈ db4.storedVideoIds ∧
    (_process_category env4 0 catW kmW db4).summary.errors
      = [("detail fetch received persisted video id v1")] := by
  exact ⟨by decide, by decide⟩

/-- C4 amended: the merged raw results are deduplicated only in-memory within
the batch — the processor's behaviour (summary, category, leads) is entirely
independent of which video ids are already persisted, so previously persisted
items proceed to detail fetch again; the repository's storage filter
`dedupe_existing`, which would return exactly the batch ids not yet in
storage, exists but is not invoked by the pipeline. -/
theorem dedup_is_batch_local {CR VR AD : Type} (env : CatEnv CR VR AD) (today : Nat)
    (cat : Cat) (km : APIKeyManager) (leads : List Lead) (s s' : List String) :
    ((_process_category env today cat km ⟨leads, s⟩).summary
        = (_process_category env today cat km ⟨leads, s'⟩).summary
      ∧ (_process_category env today cat km ⟨leads, s⟩).cat
        = (_process_category env today cat km ⟨leads, s'⟩).cat
      ∧ (_process_category env today cat km ⟨leads, s⟩).db.leads
        = (_process_category env today cat km ⟨leads, s'⟩).db.leads)
  ∧ (∀ (stored : List String) (results : List SearchResult) (vid : String),
      vid ∈ (dedupe_existing stored results).2 ↔
        ((∃ r ∈ results, r.video_id = vid) ∧ vid ∉ stored)) := by
  constructor
  · unfold _process_category
    dsimp only
    cases hb : catBody env today cat km leads with
    | error f => exact ⟨rfl, rfl, rfl⟩
    | ok o => exact ⟨rfl, rfl, rfl⟩
  · intro stored results vid
    unfold dedupe_existing
    dsimp only
    rw [List.mem_dedup]
    constructor
    · intro h
      rcases List.mem_map.mp h with ⟨r, hr, hrv⟩
      rcases List.mem_filter.mp hr with ⟨hrm, hrs⟩
      simp only [decide_eq_true_eq] at hrs
      subst hrv
      exact ⟨⟨r, hrm, rfl⟩, hrs⟩
    · rintro ⟨⟨r, hr, hrv⟩, hs⟩
      refine List.mem_map.mpr ⟨r, ?_, hrv⟩
      refine List.mem_filter.mpr ⟨hr, ?_⟩
      simp only [decide_eq_true_eq]
      rw [hrv]
      exact hs

/-- Witness for `dedup_is_batch_local` at concrete inputs: the unused storage
filter would pass a not-yet-persisted id through. -/
theorem dedup_is_batch_local_witness :
    ("v1") ∈ (dedupe_existing [] [⟨"v1", "c1", none⟩]).2 ↔
      ((∃ r ∈ [(⟨"v1", "c1", none⟩ : SearchResult)], r.video_id = "v1")
        ∧ ("v1") ∉ ([] : List String)) :=
  (dedup_is_batch_local env4 0 catW kmW [] [] []).2 [] [⟨"v1", "c1", none⟩] ("v1")

end YTW
